/-
Verification of the edge-city-finder lead-qualification pipeline.

The pipeline's core lives in `backend/app/scout/agent.py` (discovery),
`backend/app/analyst/agent.py` (verification and scoring) and
`backend/app/models.py` (the `Property` record).  The definitions below are a
shallow embedding of that code: pure helper functions are translated directly;
the external collaborators (the Exa and Tavily search providers, the URL
liveness probe, and the LLM) are supplied as explicit environment values, and
the side-effecting agents become pure functions from an environment and a
lead to an updated lead together with a trace of the external calls they made.
-/
import Mathlib

namespace EdgeCity

/-! ### Generic list/string helpers

Python's `in`, `str.endswith`, `str.rstrip` and friends, re-implemented over
`List Char` / `String` so every later definition is executable. -/

/-- Membership test for a string in a list (Python `x in someSet`). -/
def memb (s : String) : List String → Bool
  | [] => false
  | x :: xs => x == s || memb s xs

theorem memb_iff (s : String) (l : List String) : memb s l = true ↔ s ∈ l := by
  induction l with
  | nil => simp [memb]
  | cons x xs ih =>
    simp [memb, ih, Bool.or_eq_true, beq_iff_eq]
    constructor
    · rintro (h | h)
      · exact Or.inl h.symm
      · exact Or.inr h
    · rintro (h | h)
      · exact Or.inl h.symm
      · exact Or.inr h

/-- Does `pat` occur at the head of `l`? -/
def leadsWith : List Char → List Char → Bool
  | [], _ => true
  | _ :: _, [] => false
  | a :: as, b :: bs => a == b && leadsWith as bs

/-- Substring test over char lists (Python `needle in haystack`). -/
def containsSub (needle : List Char) : List Char → Bool
  | [] => leadsWith needle []
  | c :: rest => leadsWith needle (c :: rest) || containsSub needle rest

/-- Suffix test over char lists (Python `haystack.endswith(needle)`). -/
def trailsWith (needle haystack : List Char) : Bool :=
  leadsWith needle.reverse haystack.reverse

/-- First element of `l` satisfying `p` (Python's first-hit loop over a list). -/
def firstSuch (p : α → Bool) : List α → Option α
  | [] => none
  | x :: xs => if p x then some x else firstSuch p xs

theorem firstSuch_mem_prop (p : α → Bool) (l : List α) (x : α)
    (h : firstSuch p l = some x) : x ∈ l ∧ p x = true := by
  induction l with
  | nil => simp [firstSuch] at h
  | cons y ys ih =>
    by_cases hy : p y = true
    · simp [firstSuch, hy] at h
      subst h
      exact ⟨List.mem_cons_self _ _, hy⟩
    · simp [firstSuch, hy] at h
      rcases ih h with ⟨hmem, hp⟩
      exact ⟨List.mem_cons_of_mem _ hmem, hp⟩

theorem firstSuch_isSome_of_exists (p : α → Bool) (l : List α)
    (h : ∃ x, x ∈ l ∧ p x = true) : ∃ y, firstSuch p l = some y := by
  induction l with
  | nil =>
    rcases h with ⟨x, hx, _⟩
    simp at hx
  | cons y ys ih =>
    by_cases hy : p y = true
    · exact ⟨y, by simp [firstSuch, hy]⟩
    · rcases h with ⟨x, hx, hp⟩
      rcases List.mem_cons.mp hx with rfl | hx'
      · exact absurd hp hy
      · rcases ih ⟨x, hx', hp⟩ with ⟨z, hz⟩
        exact ⟨z, by simp [firstSuch, hy, hz]⟩

theorem firstSuch_eq_none_of_forall (p : α → Bool) (l : List α)
    (h : ∀ x ∈ l, p x = false) : firstSuch p l = none := by
  induction l with
  | nil => rfl
  | cons y ys ih =>
    have hy := h y (List.mem_cons_self _ _)
    simp [firstSuch, hy]
    exact ih fun x hx => h x (List.mem_cons_of_mem _ hx)

/-! ### Character classes

ASCII classes used by the regular expressions in `scout/agent.py`
(`[A-Z]`, `[a-z]`, `\d`, `\s`, and `\b`'s word characters). -/

def isUpperChar (c : Char) : Bool := 65 ≤ c.toNat && c.toNat ≤ 90

def isLowerChar (c : Char) : Bool := 97 ≤ c.toNat && c.toNat ≤ 122

def isDigitChar (c : Char) : Bool := 48 ≤ c.toNat && c.toNat ≤ 57

def isWordChar (c : Char) : Bool :=
  isUpperChar c || isLowerChar c || isDigitChar c || c == '_'

def isSpaceChar (c : Char) : Bool :=
  c == ' ' || c == '\t' || c == '\n' || c == '\r' || c == '\x0b' || c == '\x0c'

/-! ### URL normalization (`ScoutAgent._normalize_url`)

Source: `url.split('?')[0].split('#')[0]` followed by `.rstrip('/')`. -/

/-- Python `l.split(c)[0]`: the prefix of `l` before the first occurrence of `c`
(the whole list when `c` is absent). -/
def pySplitHead (c : Char) (l : List Char) : List Char :=
  l.takeWhile (fun x => x != c)

/-- Python `rstrip('/')`: drop every trailing `'/'`. -/
def rstripSlash (l : List Char) : List Char :=
  (l.reverse.dropWhile (fun x => x == '/')).reverse

/-- Embedding of `ScoutAgent._normalize_url`. -/
def normalize_url (u : String) : String :=
  String.mk (rstripSlash (pySplitHead '#' (pySplitHead '?' u.toList)))

/-- Normalization as the spec words it: cut at the first `'?'` or `'#'`
(whichever comes first removes everything from there on), then strip trailing
slashes. -/
def specNormalizeUrl (u : String) : String :=
  String.mk (rstripSlash (u.toList.takeWhile (fun c => !(c == '?') && !(c == '#'))))

theorem pySplitHead_comm_takeWhile (l : List Char) :
    pySplitHead '#' (pySplitHead '?' l)
      = l.takeWhile (fun c => !(c == '?') && !(c == '#')) := by
  induction l with
  | nil => rfl
  | cons c rest ih =>
    by_cases hq : c = '?'
    · subst hq; simp [pySplitHead, List.takeWhile]
    · by_cases hh : c = '#'
      · subst hh; simp [pySplitHead, List.takeWhile]
      · have hq' : (c == '?') = false := by simp [hq]
        have hh' : (c == '#') = false := by simp [hh]
        simp only [pySplitHead, List.takeWhile, hq', hh', bne, Bool.not_false,
          Bool.and_self] at ih ⊢
        exact congrArg (c :: ·) ih

/-! ### Location extraction (`ScoutAgent._extract_location`)

The source scans `f"{title} {text}"` with
`re.search(r'\b([A-Z][a-z]+(?:\s[A-Z][a-z]+)?),\s*([A-Z]{2})\b', combined)`
and, when the first match's state code is in `US_STATES`, returns
`f"{city}, {state}"`.  Otherwise it loops over `US_STATES` returning the first
state whose padded token occurs in the combined text, and finally falls back to
`"Location Unknown"`.  The matcher below hand-compiles exactly that regular
expression with Python's leftmost-match semantics; `usStates` keeps the literal
order of the source (the source stores it in a `set`, whose iteration order is
unspecified — the order is irrelevant to every property proved here, which only
uses membership and existence). -/

def usStates : List String :=
  ["AL", "AK", "AZ", "AR", "CA", "CO", "CT", "DE", "FL", "GA", "HI", "ID", "IL",
   "IN", "IA", "KS", "KY", "LA", "ME", "MD", "MA", "MI", "MN", "MS", "MO", "MT",
   "NE", "NV", "NH", "NJ", "NM", "NY", "NC", "ND", "OH", "OK", "OR", "PA", "RI",
   "SC", "SD", "TN", "TX", "UT", "VT", "VA", "WA", "WV", "WI", "WY"]

/-- Match `[A-Z][a-z]+` at the head of the list, returning the matched word and
the rest ( `[a-z]+` is greedy; the following regex tokens cannot consume a
lowercase letter, so maximal munch is exact). -/
def matchCityWord : List Char → Option (List Char × List Char)
  | [] => none
  | c :: rest =>
    if isUpperChar c then
      let low := rest.takeWhile isLowerChar
      if low.isEmpty then none
      else some (c :: low, rest.drop low.length)
    else none

/-- Match `,\s*([A-Z]{2})\b` at the head of the list, returning the two-letter
state.  `\s*` is greedy and `[A-Z]` cannot match a space, so dropping every
space is exact. -/
def matchCommaST : List Char → Option (List Char)
  | ',' :: rest =>
    let rest2 := rest.dropWhile isSpaceChar
    match rest2 with
    | a :: b :: rest3 =>
      if isUpperChar a && isUpperChar b &&
          (match rest3 with | [] => true | d :: _ => !isWordChar d) then
        some [a, b]
      else none
    | _ => none
  | _ => none

/-- Match the whole pattern anchored at the current position.  `prevWord` says
whether the preceding character is a word character (for the leading `\b`).
The optional second city word `(?:\s[A-Z][a-z]+)?` is greedy: it is tried
first, and on failure of the remainder the engine backtracks to the bare
one-word city. -/
def matchCitySTAt (prevWord : Bool) (l : List Char) : Option (String × String) :=
  if prevWord then none
  else
    match matchCityWord l with
    | none => none
    | some (w1, rest1) =>
      let withSecond : Option (List Char × List Char) :=
        match rest1 with
        | s :: rest2 =>
          if isSpaceChar s then
            match matchCityWord rest2 with
            | some (w2, rest3) => some (w1 ++ [s] ++ w2, rest3)
            | none => none
          else none
        | [] => none
      match withSecond with
      | some (city2, rest3) =>
        match matchCommaST rest3 with
        | some st => some (String.mk city2, String.mk st)
        | none =>
          match matchCommaST rest1 with
          | some st => some (String.mk w1, String.mk st)
          | none => none
      | none =>
        match matchCommaST rest1 with
        | some st => some (String.mk w1, String.mk st)
        | none => none

/-- Leftmost search for the City-ST pattern (`re.search` semantics): try every
start position from the left, threading whether the previous character is a
word character. -/
def searchCityST : Bool → List Char → Option (String × String)
  | _, [] => none
  | prevW, c :: rest =>
    match matchCitySTAt prevW (c :: rest) with
    | some r => some r
    | none => searchCityST (isWordChar c) rest

/-- The fallback loop's test: `f" {state} " in combined or combined.endswith(f" {state}")`. -/
def standaloneState (st : String) (combined : String) : Bool :=
  containsSub (" " ++ st ++ " ").toList combined.toList ||
    trailsWith (" " ++ st).toList combined.toList

/-- The fallback loop over `US_STATES`, then the `"Location Unknown"` sentinel. -/
def fallbackState (combined : String) : String :=
  match firstSuch (fun st => standaloneState st combined) usStates with
  | some st => st
  | none => "Location Unknown"

/-- Embedding of `ScoutAgent._extract_location`. -/
def extract_location (text title : String) : String :=
  let combined := title ++ " " ++ text
  match searchCityST false combined.toList with
  | some (city, st) =>
    if memb st usStates then city ++ ", " ++ st
    else fallbackState combined
  | none => fallbackState combined

/-! ### Price extraction (`ScoutAgent._extract_price`)

The source tries, in order, the patterns
`\$[\d,]+(?:\.\d+)?(?:\s*(?:million|M))?`, `asking\s+\$[\d,]+` and
`listed\s+(?:at|for)\s+\$[\d,]+`, each with `re.IGNORECASE`, returning the
first pattern's leftmost match verbatim.  No claim constrains this function;
it is embedded so discovery builds complete lead records. -/

def toLowerC (c : Char) : Char :=
  if isUpperChar c then Char.ofNat (c.toNat + 32) else c

/-- Case-insensitive `leadsWith`. -/
def leadsWithCI (pat l : List Char) : Bool :=
  leadsWith (pat.map toLowerC) (l.map toLowerC)

def isDigitOrComma (c : Char) : Bool := isDigitChar c || c == ','

/-- Match pattern 1 anchored at the head of the list, returning the matched
text.  The optional fraction and the optional `million|M` suffix are greedy;
`million` is the preferred alternative. -/
def matchPrice1At : List Char → Option (List Char)
  | '$' :: rest =>
    let digits := rest.takeWhile isDigitOrComma
    if digits.isEmpty then none
    else
      let rest2 := rest.drop digits.length
      let fracPair : List Char × List Char :=
        match rest2 with
        | '.' :: r2 =>
          let ds := r2.takeWhile isDigitChar
          if ds.isEmpty then ([], rest2) else ('.' :: ds, r2.drop ds.length)
        | _ => ([], rest2)
      let rest3 := fracPair.2
      let sp := rest3.takeWhile isSpaceChar
      let rest4 := rest3.drop sp.length
      let mil : List Char :=
        if leadsWithCI "million".toList rest4 then sp ++ rest4.take 7
        else
          match rest4 with
          | m :: _ => if toLowerC m == 'm' then sp ++ [m] else []
          | [] => []
      some ('$' :: (digits ++ fracPair.1 ++ mil))
  | _ => none

/-- Match `\s+\$[\d,]+` and return the consumed text (shared tail of patterns
2 and 3). -/
def matchSpaceDollarAt (l : List Char) : Option (List Char) :=
  let sp := l.takeWhile isSpaceChar
  if sp.isEmpty then none
  else
    match l.drop sp.length with
    | '$' :: r =>
      let digits := r.takeWhile isDigitOrComma
      if digits.isEmpty then none else some (sp ++ '$' :: digits)
    | _ => none

/-- Match pattern 2 (`asking\s+\$[\d,]+`, case-insensitive) at the head. -/
def matchPrice2At (l : List Char) : Option (List Char) :=
  if leadsWithCI "asking".toList l then
    match matchSpaceDollarAt (l.drop 6) with
    | some t => some (l.take 6 ++ t)
    | none => none
  else none

/-- Match pattern 3 (`listed\s+(?:at|for)\s+\$[\d,]+`, case-insensitive) at the
head; the alternative `at` is tried before `for`. -/
def matchPrice3At (l : List Char) : Option (List Char) :=
  if leadsWithCI "listed".toList l then
    let afterListed := l.drop 6
    let sp1 := afterListed.takeWhile isSpaceChar
    if sp1.isEmpty then none
    else
      let rest1 := afterListed.drop sp1.length
      let tryWord : List Char → Nat → Option (List Char) := fun w n =>
        if leadsWithCI w rest1 then
          match matchSpaceDollarAt (rest1.drop n) with
          | some t => some (l.take 6 ++ sp1 ++ rest1.take n ++ t)
          | none => none
        else none
      match tryWord "at".toList 2 with
      | some t => some t
      | none => tryWord "for".toList 3
  else none

/-- Leftmost search for a pattern matcher. -/
def searchPat (pat : List Char → Option (List Char)) : List Char → Option (List Char)
  | [] => pat []
  | c :: rest =>
    match pat (c :: rest) with
    | some r => some r
    | none => searchPat pat rest

/-- Embedding of `ScoutAgent._extract_price`: first pattern that matches
anywhere wins, leftmost occurrence, matched text returned verbatim. -/
def extract_price (text : String) : Option String :=
  let l := text.toList
  match searchPat matchPrice1At l with
  | some r => some (String.mk r)
  | none =>
    match searchPat matchPrice2At l with
    | some r => some (String.mk r)
    | none =>
      match searchPat matchPrice3At l with
      | some r => some (String.mk r)
      | none => none

/-! ### Source-type classification (`ScoutAgent._determine_source_type`) -/

def toLowerStr (s : String) : String := String.mk (s.toList.map toLowerC)

def containsStr (needle haystack : String) : Bool :=
  containsSub needle.toList haystack.toList

/-- Embedding of `ScoutAgent._determine_source_type`. -/
def determine_source_type (url discovered_via : String) : String :=
  let u := toLowerStr url
  if ["loopnet", "crexi", "landwatch", "landsofamerica"].any
      (fun s => containsStr s u) then "listing"
  else if ["auction.com", "ten-x", "hubzu"].any (fun s => containsStr s u) then
    "auction"
  else if ["news", "journal", "times", "post", "herald", "nytimes", "wsj"].any
      (fun s => containsStr s u) then "news"
  else if containsStr "legal" discovered_via ||
      containsStr "foreclosure" discovered_via then "foreclosure"
  else "news"

/-! ### The lead record (`app/models.py`, class `Property`)

Fields follow `models.py`.  `funnel_stage` is declared there as a `Literal`
over the five stages, but pydantic validates only at construction, not on
attribute assignment, so mutation by the agents can store any string — the
field is therefore embedded as `String` (claim C10 turns on exactly this).
Timestamps are abstract ticks (`Nat`); numeric JSON payloads are modelled as
integers (no claim exercises float-specific behavior). -/

def funnelStages : List String :=
  ["discovered", "qualified", "interesting", "contacted", "dismissed"]

structure Property where
  id : Option String := none
  title : String
  url : String
  price : Option String := none
  location : Option String := none
  description : Option String := none
  status : String := "New"
  score : Int := 0
  acreage : Option Int := none
  bed_count : Option Int := none
  year_built : Option Int := none
  nearest_airport : Option String := none
  drive_time_minutes : Option Int := none
  ai_summary : Option String := none
  image_url : Option String := none
  funnel_stage : String := "discovered"
  is_new : Bool := true
  verification_result : Option String := none
  verification_reason : Option String := none
  last_verified_at : Option Nat := none
  source_type : Option String := none
  discovered_via : Option String := none
  search_query : Option String := none
  dismissed_reason : Option String := none
  dismissed_pattern : Option String := none
deriving DecidableEq, Repr

/-! ### Discovery engine (`ScoutAgent.find_candidates` and `_search_tavily`)

External search providers are supplied through a `ScoutEnv`: each provider is
a deterministic function from a query to either an error (the `except` branch
of the per-query `try`) or a list of hits.  An Exa hit carries the attributes
read by the source (`result.title`, `result.url`, `result.text`,
`getattr(result, 'image', None)`); a Tavily hit is the dict read with
`result.get(...)`, so every key is optional.  The run additionally records a
trace of which provider queries were attempted. -/

structure SearchHit where
  title : Option String := none
  url : String := ""
  text : Option String := none
  image : Option String := none
deriving DecidableEq, Repr

structure TavilyHit where
  url : Option String := none
  content : Option String := none
  title : Option String := none
deriving DecidableEq, Repr

inductive SEvent where
  | exa (q : String)
  | tavily (q : String)
deriving DecidableEq, Repr

structure ScoutEnv where
  exaConfigured : Bool
  tavilyConfigured : Bool
  exaSearch : String → Except String (List SearchHit)
  tavilySearch : String → Except String (List TavilyHit)

/-- The `SEARCH_QUERIES` catalog, in source order. -/
def platformQueries : List (String × String) :=
  [("site:loopnet.com college campus for sale", "exa_loopnet"),
   ("site:crexi.com institutional property for sale", "exa_crexi"),
   ("site:auction.com commercial property foreclosure", "exa_auction"),
   ("site:ten-x.com hotel resort auction", "exa_tenx"),
   ("site:landwatch.com large acreage retreat center", "exa_landwatch"),
   ("site:landsofamerica.com campus dormitory for sale", "exa_landsofamerica")]

def newsQueries : List (String × String) :=
  [("college closing announcement campus for sale", "exa_news"),
   ("university shutdown bankruptcy real estate", "exa_news"),
   ("resort hotel foreclosure auction rural", "exa_news"),
   ("summer camp property sale closing", "exa_news"),
   ("boarding school closing campus available", "exa_news"),
   ("monastery convent sold conversion opportunity", "exa_news")]

def distressQueries : List (String × String) :=
  [("WARN Act notice college layoffs closure", "exa_legal"),
   ("Chapter 11 bankruptcy college university campus", "exa_legal"),
   ("foreclosure rural hotel resort property", "exa_foreclosure"),
   ("abandoned institutional building redevelopment", "exa_distress")]

def searchCategories : List (String × List (String × String)) :=
  [("platforms", platformQueries), ("news", newsQueries),
   ("distress", distressQueries)]

/-- The fixed Tavily query set of `_search_tavily`. -/
def tavilyQueries : List String :=
  ["college campus for sale closing 2025 2026",
   "rural resort hotel foreclosure auction",
   "summer camp property sale available"]

/-- Queries contributed by the requested categories:
`for category in categories: if category in SEARCH_QUERIES: extend(...)`. -/
def queriesFor (cats : List String) : List (String × String) :=
  cats.flatMap fun c =>
    match firstSuch (fun p => p.1 == c) searchCategories with
    | some p => p.2
    | none => []

/-- Python `x or d` for an optional string (`None` and `""` are falsy). -/
def pyOr (o : Option String) (d : String) : String :=
  match o with
  | none => d
  | some s => if s == "" then d else s

/-- The description budget:
`text[:500] + "..." if len(text) > 500 else text`. -/
def pyTrunc (s : String) : String :=
  if s.length > 500 then s.take 500 ++ "..." else s

/-- The candidate lead built for an Exa hit in `find_candidates`. -/
def mkExaProp (query via : String) (h : SearchHit) : Property :=
  let text_content := h.text.getD ""
  { title := pyOr h.title "Untitled Property"
    url := h.url
    location := some (extract_location text_content (pyOr h.title ""))
    price := extract_price text_content
    description := some (pyTrunc text_content)
    status := "New"
    score := 50
    image_url := h.image
    funnel_stage := "discovered"
    is_new := true
    source_type := some (determine_source_type h.url via)
    discovered_via := some via
    search_query := some query }

/-- The candidate lead built for a Tavily hit in `_search_tavily`. -/
def mkTavilyProp (query : String) (h : TavilyHit) : Property :=
  let url := h.url.getD ""
  let text_content := h.content.getD ""
  let title := h.title.getD "Untitled"
  { title := title
    url := url
    location := some (extract_location text_content title)
    price := extract_price text_content
    description := some (pyTrunc text_content)
    status := "New"
    score := 50
    funnel_stage := "discovered"
    is_new := true
    source_type := some "news"
    discovered_via := some "tavily_news"
    search_query := some query }

/-- The two-tier dedup loop shared by both providers: normalize each hit's
URL, skip it when the normalized key is in the caller-supplied known set or in
the in-run accumulator, otherwise add the key to the accumulator and keep the
hit.  Returns the final accumulator and the kept hits in order. -/
def sift (urlOf : α → String) (existing : List String) :
    List String → List α → List String × List α
  | seen, [] => (seen, [])
  | seen, h :: rest =>
    let n := normalize_url (urlOf h)
    if memb n existing || memb n seen then sift urlOf existing seen rest
    else
      let out := sift urlOf existing (seen ++ [n]) rest
      (out.1, h :: out.2)

/-- Accumulated run state: the dedup accumulator (`seen_urls`), the collected
leads (`found_properties`) and the trace of attempted provider queries. -/
structure ScoutState where
  seen : List String
  props : List Property
  trace : List SEvent
deriving Repr

/-- One provider query: record the attempt, then either swallow the provider
error (`except ... continue`) or sift the hits and append the built leads.
Both provider loops in the source share this shape; it is instantiated below
with the Exa query pairs and with the Tavily query list. -/
def runProvider (search : β → Except String (List α)) (urlOf : α → String)
    (mk : β → α → Property) (mkEv : β → SEvent) (existing : List String) :
    ScoutState → List β → ScoutState
  | st, [] => st
  | st, q :: rest =>
    let st1 : ScoutState := { st with trace := st.trace ++ [mkEv q] }
    let st2 : ScoutState :=
      match search q with
      | .error _ => st1
      | .ok results =>
        let s := sift urlOf existing st1.seen results
        { st1 with seen := s.1, props := st1.props ++ (s.2.map (mk q)) }
    runProvider search urlOf mk mkEv existing st2 rest

/-- The query list assembled by `find_candidates`: the custom query (tagged
`manual`) when present, followed by the catalog queries of the requested
categories (default: all three). -/
def assembleQueries (custom_query : Option String)
    (categories : Option (List String)) : List (String × String) :=
  (match custom_query with
   | some q => [(q, "manual")]
   | none => []) ++ queriesFor (categories.getD ["platforms", "news", "distress"])

/-- The body of `find_candidates` past the credential gate: the Exa loop over
the assembled queries, then the Tavily pass, which runs only when Tavily is
configured and no custom query was given. -/
def scoutRun (env : ScoutEnv) (existing_urls : List String)
    (custom_query : Option String) (categories : Option (List String)) :
    ScoutState :=
  let st1 := runProvider (fun qv => env.exaSearch qv.1) SearchHit.url
    (fun qv h => mkExaProp qv.1 qv.2 h) (fun qv => SEvent.exa qv.1)
    existing_urls ⟨[], [], []⟩ (assembleQueries custom_query categories)
  if env.tavilyConfigured && custom_query.isNone then
    runProvider env.tavilySearch (fun h => h.url.getD "") mkTavilyProp
      SEvent.tavily existing_urls st1 tavilyQueries
  else st1

/-- Embedding of `ScoutAgent.find_candidates`: no Exa credential short-circuits
to an empty batch with no search attempted; otherwise the two provider loops
run as in `scoutRun`. -/
def find_candidates (env : ScoutEnv) (existing_urls : List String)
    (custom_query : Option String) (categories : Option (List String)) :
    List Property × List SEvent :=
  if env.exaConfigured = false then ([], [])
  else
    ((scoutRun env existing_urls custom_query categories).props,
     (scoutRun env existing_urls custom_query categories).trace)

/-! ### JSON verdicts (`re.search(r'\x7b.*\x7d', text, re.DOTALL)` + `json.loads`)

The analyst extracts the first-brace-to-last-brace span of the LLM's free-text
reply and decodes it.  `Json` and `parseJsonE` model the decoded values and
Python's decoder on the subset the verdicts use: objects, arrays, unescaped
strings, integers, booleans and `null` (escape sequences and float literals
are rejected by this model; no claim and no concrete input below exercises
them).  Duplicate object keys keep the last binding, as a Python dict does. -/

inductive Json where
  | null
  | bool (b : Bool)
  | num (n : Int)
  | str (s : String)
  | arr (elems : List Json)
  | obj (fields : List (String × Json))
deriving Repr

/-- Span of the greedy DOTALL match of `\x7b.*\x7d`: from the first `'\x7b'`
that has some `'\x7d'` after it — equivalently the first `'\x7b'`, when the
last `'\x7d'` lies beyond it — through that last `'\x7d'`. -/
def extractJson (text : String) : Option String :=
  let l := text.toList
  let n := l.length
  let firstOpen := (l.takeWhile (fun c => c != '\x7b')).length
  let lastClose := n - 1 - (l.reverse.takeWhile (fun c => c != '\x7d')).length
  if firstOpen < n && (l.reverse.takeWhile (fun c => c != '\x7d')).length < n &&
      firstOpen < lastClose then
    some (String.mk ((l.drop firstOpen).take (lastClose + 1 - firstOpen)))
  else none

def isJsonWs (c : Char) : Bool :=
  c == ' ' || c == '\t' || c == '\n' || c == '\r'

def skipWs (l : List Char) : List Char := l.dropWhile isJsonWs

/-- Read an unescaped string body up to the closing quote. -/
def parseStrBody : List Char → Option (String × List Char)
  | [] => none
  | '"' :: rest => some ("", rest)
  | '\\' :: _ => none
  | c :: rest =>
    match parseStrBody rest with
    | some (s, r) => some (String.mk (c :: s.toList), r)
    | none => none

def digitsToInt (ds : List Char) : Int :=
  ds.foldl (fun acc c => acc * 10 + (Int.ofNat (c.toNat - 48))) 0

/-- Read a nonempty digit run as a natural number (float literals are outside
the modelled subset and rejected). -/
def parseNat (l : List Char) : Option (Nat × List Char) :=
  let ds := l.takeWhile isDigitChar
  if ds.isEmpty then none
  else
    match (l.drop ds.length) with
    | '.' :: _ => none
    | 'e' :: _ => none
    | 'E' :: _ => none
    | r => some ((digitsToInt ds).toNat, r)

mutual

/-- Decode one JSON value from the head of the input; fuel bounds recursion
depth. -/
def parseVal : Nat → List Char → Except String (Json × List Char)
  | 0, _ => .error "Fuel exhausted"
  | Nat.succ fuel, l =>
    match skipWs l with
    | [] => .error "Expecting value"
    | '\x7b' :: rest =>
      (match skipWs rest with
       | '\x7d' :: r2 => .ok (Json.obj [], r2)
       | _ => parseObjFields fuel rest [])
    | '[' :: rest =>
      (match skipWs rest with
       | ']' :: r2 => .ok (Json.arr [], r2)
       | _ => parseArrElems fuel rest [])
    | '"' :: rest =>
      (match parseStrBody rest with
       | some (s, r) => .ok (Json.str s, r)
       | none => .error "Unterminated string")
    | 't' :: 'r' :: 'u' :: 'e' :: rest => .ok (Json.bool true, rest)
    | 'f' :: 'a' :: 'l' :: 's' :: 'e' :: rest => .ok (Json.bool false, rest)
    | 'n' :: 'u' :: 'l' :: 'l' :: rest => .ok (Json.null, rest)
    | '-' :: rest =>
      (match parseNat rest with
       | some (n, r) => .ok (Json.num (-(Int.ofNat n)), r)
       | none => .error "Expecting value")
    | c :: rest =>
      if isDigitChar c then
        match parseNat (c :: rest) with
        | some (n, r) => .ok (Json.num (Int.ofNat n), r)
        | none => .error "Expecting value"
      else .error "Expecting value"

/-- Decode the fields of an object, after the opening brace. -/
def parseObjFields (fuel : Nat) (l : List Char) (acc : List (String × Json)) :
    Except String (Json × List Char) :=
  match fuel with
  | 0 => .error "Fuel exhausted"
  | Nat.succ fuel =>
    match skipWs l with
    | '"' :: rest =>
      (match parseStrBody rest with
       | none => .error "Unterminated string"
       | some (k, r1) =>
         match skipWs r1 with
         | ':' :: r2 =>
           (match parseVal fuel r2 with
            | .error e => .error e
            | .ok (v, r3) =>
              match skipWs r3 with
              | ',' :: r4 => parseObjFields fuel r4 (acc ++ [(k, v)])
              | '\x7d' :: r4 => .ok (Json.obj (acc ++ [(k, v)]), r4)
              | _ => .error "Expecting comma or brace")
         | _ => .error "Expecting colon")
    | _ => .error "Expecting property name"

/-- Decode the elements of an array, after the opening bracket. -/
def parseArrElems (fuel : Nat) (l : List Char) (acc : List Json) :
    Except String (Json × List Char) :=
  match fuel with
  | 0 => .error "Fuel exhausted"
  | Nat.succ fuel =>
    match parseVal fuel l with
    | .error e => .error e
    | .ok (v, r1) =>
      match skipWs r1 with
      | ',' :: r2 => parseArrElems fuel r2 (acc ++ [v])
      | ']' :: r2 => .ok (Json.arr (acc ++ [v]), r2)
      | _ => .error "Expecting comma or bracket"

end

/-- Embedding of `json.loads` on the candidate span: decode one value and
require only whitespace to remain (`Extra data` otherwise). -/
def parseJsonE (s : String) : Except String Json :=
  match parseVal (3 * s.length + 16) s.toList with
  | .error e => .error e
  | .ok (v, rest) =>
    if (skipWs rest).isEmpty then .ok v else .error "Extra data"

/-- Dict lookup (`data.get(k)` / `data[k]`); duplicate keys keep the last
binding. -/
def jlookup (j : Json) (k : String) : Option Json :=
  match j with
  | .obj fields => (firstSuch (fun p => p.1 == k) fields.reverse).map (fun p => p.2)
  | _ => none

/-- Python truthiness of an optional JSON value (`if data.get(k):`). -/
def jsonTruthy : Option Json → Bool
  | none => false
  | some .null => false
  | some (.bool b) => b
  | some (.num n) => n != 0
  | some (.str s) => s != ""
  | some (.arr l) => !l.isEmpty
  | some (.obj l) => !l.isEmpty

/-- Python truthiness of an optional numeric lead field
(`not prop.bed_count` is true for both `None` and `0`). -/
def pyTruthyOptInt : Option Int → Bool
  | none => false
  | some n => n != 0

/-- Value of `data.get(k, default)` at string type.  The source stores the raw
decoded value and pydantic does not re-validate on assignment; every claim and
every concrete input below uses string-typed values for these keys, so
non-string values fall back to the default here. -/
def jgetStrD (d : Json) (k : String) (dflt : String) : String :=
  match jlookup d k with
  | some (.str s) => s
  | _ => dflt

/-- Value of `data.get(k, default)` at optional-string type (`null` becomes
`None`). -/
def jgetStrOptD (d : Json) (k : String) (dflt : Option String) : Option String :=
  match jlookup d k with
  | some (.str s) => some s
  | some .null => none
  | some _ => dflt
  | none => dflt

/-- Value of `data.get(k, default)` at integer type. -/
def jgetIntD (d : Json) (k : String) (dflt : Int) : Int :=
  match jlookup d k with
  | some (.num n) => n
  | _ => dflt

/-- Assignment `field = data[k]` at optional-string type, used under a
truthiness guard. -/
def jAssignStr (v : Option Json) (old : Option String) : Option String :=
  match v with
  | some (.str s) => some s
  | _ => old

/-- Assignment `field = data[k]` at optional-integer type, used under a
truthiness guard. -/
def jAssignInt (v : Option Json) (old : Option Int) : Option Int :=
  match v with
  | some (.num n) => some n
  | _ => old

/-! ### Verification and scoring engine (`app/analyst/agent.py`)

The agent's external calls are supplied through an environment:
`modelConfigured` is whether a Gemini credential exists (`self.model`),
`probe` is the outcome of the `httpx` HEAD request issued by `verify_url`
(a status code, or a raised exception's message), and `llm` is the outcome of
`generate_content` (the reply text, or a raised exception's message).  `now`
is the abstract `datetime.now()` tick.  `verify_property` also returns the
trace of external calls it made, so short-circuits are visible. -/

inductive ProbeOutcome where
  | status (code : Nat)
  | failure (msg : String)
deriving DecidableEq, Repr

inductive LlmOutcome where
  | raises (msg : String)
  | returns (text : String)
deriving DecidableEq, Repr

inductive Event where
  | probe
  | llm
deriving DecidableEq, Repr

structure VEnv where
  modelConfigured : Bool
  probe : ProbeOutcome
  llm : LlmOutcome
  now : Nat
deriving DecidableEq, Repr

/-- Embedding of `AnalystAgent.verify_url`: accessible only on status 200;
404 and every other status or network failure produce the corresponding
reason string. -/
def verify_url (outcome : ProbeOutcome) : Bool × String :=
  match outcome with
  | .status code =>
    if code = 200 then (true, "URL accessible")
    else if code = 404 then (false, "URL not found (404)")
    else (false, "HTTP " ++ toString code)
  | .failure m => (false, "Error accessing URL: " ++ m)

/-- Embedding of `AnalystAgent.verify_property`.  Mirrors the source branch
for branch: no credential → stage `qualified`, nothing else touched, no
external call; probe not accessible → `invalid_url`/`dismissed` and no LLM
call; otherwise the LLM reply is brace-extracted and decoded — a decode error
or a raised LLM exception lands in the `except` handler
(`error`/`interesting`), while a reply with no brace-delimited span skips the
`if match:` block and leaves the lead untouched. -/
def verify_property (env : VEnv) (prop : Property) : Property × List Event :=
  if env.modelConfigured = false then
    ({ prop with funnel_stage := "qualified" }, [])
  else
    let probed := verify_url env.probe
    if probed.1 = false then
      ({ prop with
          verification_result := some "invalid_url"
          verification_reason := some probed.2
          funnel_stage := "dismissed"
          last_verified_at := some env.now }, [Event.probe])
    else
      match env.llm with
      | .raises e =>
        ({ prop with
            verification_result := some "error"
            verification_reason := some e
            funnel_stage := "interesting"
            last_verified_at := some env.now }, [Event.probe, Event.llm])
      | .returns text =>
        match extractJson text with
        | none => (prop, [Event.probe, Event.llm])
        | some cand =>
          match parseJsonE cand with
          | .error e =>
            ({ prop with
                verification_result := some "error"
                verification_reason := some e
                funnel_stage := "interesting"
                last_verified_at := some env.now }, [Event.probe, Event.llm])
          | .ok data =>
            let p := { prop with
              verification_result :=
                some (if jsonTruthy (jlookup data "is_available") then
                  "available" else "not_available")
              verification_reason := some (jgetStrD data "reason" "")
              funnel_stage := jgetStrD data "classification" "interesting"
              last_verified_at := some env.now }
            let p := if jsonTruthy (jlookup data "extracted_price") then
                { p with price := jAssignStr (jlookup data "extracted_price") p.price }
              else p
            let p := if jsonTruthy (jlookup data "extracted_beds") then
                { p with bed_count := jAssignInt (jlookup data "extracted_beds") p.bed_count }
              else p
            let p := if jsonTruthy (jlookup data "extracted_acreage") then
                { p with acreage := jAssignInt (jlookup data "extracted_acreage") p.acreage }
              else p
            (p, [Event.probe, Event.llm])

structure AEnv where
  modelConfigured : Bool
  llm : LlmOutcome
deriving DecidableEq, Repr

/-- Embedding of `AnalystAgent.analyze_property`.  Any failure (raised LLM
call, no brace-delimited span, decode error) returns the lead unmodified;
on success `score` and `ai_summary` take the verdict values when the keys are
present, while `inferred_beds` / `inferred_acreage` are applied only when the
verdict value is truthy and the lead's current field is falsy
(`data.get(k) and not prop.field`). -/
def analyze_property (env : AEnv) (prop : Property) : Property :=
  if env.modelConfigured = false then prop
  else
    match env.llm with
    | .raises _ => prop
    | .returns text =>
      match extractJson text with
      | none => prop
      | some cand =>
        match parseJsonE cand with
        | .error _ => prop
        | .ok data =>
          let p := { prop with
            score := jgetIntD data "score" prop.score
            ai_summary := jgetStrOptD data "ai_summary" prop.ai_summary }
          let p := if jsonTruthy (jlookup data "inferred_beds") &&
              !pyTruthyOptInt prop.bed_count then
              { p with bed_count := jAssignInt (jlookup data "inferred_beds") p.bed_count }
            else p
          let p := if jsonTruthy (jlookup data "inferred_acreage") &&
              !pyTruthyOptInt prop.acreage then
              { p with acreage := jAssignInt (jlookup data "inferred_acreage") p.acreage }
            else p
          p

/-- Embedding of `AnalystAgent.verify_and_analyze`: verify, then analyze when
the stage landed in `qualified` or `interesting`. -/
def verify_and_analyze (venv : VEnv) (aenv : AEnv) (prop : Property) : Property :=
  let v := (verify_property venv prop).1
  if v.funnel_stage = "qualified" ∨ v.funnel_stage = "interesting" then
    analyze_property aenv v
  else v

/-! ### Helper lemmas about the verification engine -/

theorem verify_url_ok_iff (o : ProbeOutcome) :
    (verify_url o).1 = true ↔ o = .status 200 := by
  cases o with
  | status c =>
    by_cases h : c = 200
    · subst h; simp [verify_url]
    · simp only [verify_url, h, if_false]
      constructor
      · intro hfalse
        exact absurd hfalse (by split <;> simp)
      · intro heq
        cases heq
        exact absurd rfl h
  | failure m => simp [verify_url]

/-- Trace of `verify_property` when the probe reports the URL accessible. -/
theorem verify_property_trace_ok (env : VEnv) (prop : Property)
    (hm : env.modelConfigured = true) (ha : (verify_url env.probe).1 = true) :
    (verify_property env prop).2 = [Event.probe, Event.llm] := by
  simp only [verify_property, hm, ha, Bool.false_eq_true, if_false,
    Bool.true_eq_false]
  cases env.llm with
  | raises e => simp
  | returns text =>
    cases hc : extractJson text with
    | none => simp [hc]
    | some cand =>
      cases hd : parseJsonE cand with
      | error e => simp [hc, hd]
      | ok data => simp [hc, hd]

/-- Fields set by the success branch of `verify_property` (probe 200, reply
decodes). -/
theorem verify_property_success (env : VEnv) (prop : Property)
    (text cand : String) (data : Json)
    (hm : env.modelConfigured = true) (hp : env.probe = .status 200)
    (hl : env.llm = .returns text) (hc : extractJson text = some cand)
    (hd : parseJsonE cand = .ok data) :
    (verify_property env prop).1.funnel_stage
        = jgetStrD data "classification" "interesting" ∧
    (verify_property env prop).1.verification_result
        = some (if jsonTruthy (jlookup data "is_available") then "available"
            else "not_available") ∧
    (verify_property env prop).1.verification_reason
        = some (jgetStrD data "reason" "") ∧
    (verify_property env prop).1.last_verified_at = some env.now ∧
    (verify_property env prop).2 = [Event.probe, Event.llm] := by
  have ha : (verify_url env.probe).1 = true := by rw [hp]; rfl
  refine ⟨?_, ?_, ?_, ?_, verify_property_trace_ok env prop hm ha⟩ <;>
    simp [verify_property, hm, ha, hl, hc, hd,
      apply_ite Property.funnel_stage, apply_ite Property.verification_result,
      apply_ite Property.verification_reason, apply_ite Property.last_verified_at]

/-- C1 (amended).  With a credential configured, a reachable URL (status 200)
and an LLM reply `text`: if the brace-extracted span fails to decode, the
lead fails open to `verification_result = error`, `funnel_stage =
interesting`, reason = decode-error detail, timestamp stamped; if the reply
contains no brace-delimited span at all, the `if match:` block is skipped and
the lead is returned entirely unchanged (no error, no stage change, no
timestamp); if the span decodes but the `classification` field is missing,
the stage defaults to `interesting` and the result is `available` /
`not_available`, not `error`.  In none of these cases is the lead
`dismissed`. -/
theorem C1_parse_failure_fail_open (env : VEnv) (prop : Property) (text : String)
    (hm : env.modelConfigured = true) (hp : env.probe = .status 200)
    (hl : env.llm = .returns text) :
    (extractJson text = none →
      verify_property env prop = (prop, [Event.probe, Event.llm])) ∧
    (∀ cand e, extractJson text = some cand → parseJsonE cand = .error e →
      verify_property env prop =
        ({ prop with
            verification_result := some "error"
            verification_reason := some e
            funnel_stage := "interesting"
            last_verified_at := some env.now }, [Event.probe, Event.llm])) ∧
    (∀ cand data, extractJson text = some cand → parseJsonE cand = .ok data →
      jlookup data "classification" = none →
      (verify_property env prop).1.funnel_stage = "interesting" ∧
      (verify_property env prop).1.verification_result ≠ some "error" ∧
      (verify_property env prop).1.funnel_stage ≠ "dismissed") := by
  have ha : (verify_url env.probe).1 = true := by rw [hp]; rfl
  refine ⟨?_, ?_, ?_⟩
  · intro h
    simp [verify_property, hm, ha, hl, h]
  · intro cand e hc he
    simp [verify_property, hm, ha, hl, hc, he]
  · intro cand data hc hd hcl
    obtain ⟨h1, h2, _, _, _⟩ := verify_property_success env prop text cand data hm hp hl hc hd
    refine ⟨?_, ?_, ?_⟩
    · rw [h1]; simp [jgetStrD, hcl]
    · rw [h2]
      split <;> simp
    · rw [h1]; simp [jgetStrD, hcl]

def prop0 : Property := { title := "T", url := "http://x.com/a" }

def env1cx : VEnv := ⟨true, .status 200, .returns "I could not produce JSON.", 7⟩

/-- C1 (counterexample to the claim as stated).  The credential is
configured, the probe returns 200, and the reply contains no brace-delimited
object — yet `verify_property` does not set `verification_result = error` or
`funnel_stage = interesting`: it returns the lead unchanged (still
`discovered`, unstamped), because the source's `if match:` guard silently
skips the whole update and no exception reaches the handler. -/
theorem C1_claim_counterexample :
    extractJson "I could not produce JSON." = none ∧
    (verify_property env1cx prop0).1.verification_result = none ∧
    (verify_property env1cx prop0).1.funnel_stage = "discovered" ∧
    (verify_property env1cx prop0).1.last_verified_at = none := by
  refine ⟨rfl, rfl, rfl, rfl⟩

def env1w : VEnv := ⟨true, .status 200, .returns "pre \x7b\"bad\"\x7d post", 7⟩

/-- Witness for C1: a decodable-looking span that fails to decode lands in
the error/interesting branch. -/
theorem C1_parse_failure_fail_open_witness :
    (verify_property env1w prop0).1.verification_result = some "error" ∧
    (verify_property env1w prop0).1.funnel_stage = "interesting" := by
  have h := (C1_parse_failure_fail_open env1w prop0 "pre \x7b\"bad\"\x7d post"
    rfl rfl rfl).2.1 "\x7b\"bad\"\x7d" "Expecting colon" rfl rfl
  rw [h]
  exact ⟨rfl, rfl⟩

/-- C2 (amended).  With a credential configured, `verify_property` always
probes first (the trace starts with the probe event), and the LLM is invoked
if and only if the probe returned status 200 exactly — not any 2xx status.
On anything other than 200 (other statuses, including other 2xx codes, and
network failures) the lead is marked `invalid_url` / `dismissed` with the
probe's reason and a timestamp, and no LLM call happens. -/
theorem C2_liveness_gate (env : VEnv) (prop : Property)
    (hm : env.modelConfigured = true) :
    (verify_property env prop).2.head? = some Event.probe ∧
    (Event.llm ∈ (verify_property env prop).2 ↔ env.probe = .status 200) ∧
    (env.probe ≠ .status 200 →
      verify_property env prop =
        ({ prop with
            verification_result := some "invalid_url"
            verification_reason := some (verify_url env.probe).2
            funnel_stage := "dismissed"
            last_verified_at := some env.now }, [Event.probe])) := by
  by_cases ha : (verify_url env.probe).1 = true
  · have h200 : env.probe = .status 200 := (verify_url_ok_iff env.probe).mp ha
    have htr := verify_property_trace_ok env prop hm ha
    refine ⟨by rw [htr]; rfl, ⟨fun _ => h200, fun _ => by rw [htr]; simp⟩,
      fun hne => absurd h200 hne⟩
  · have hne : env.probe ≠ .status 200 := fun h =>
      ha ((verify_url_ok_iff env.probe).mpr h)
    have ha' : (verify_url env.probe).1 = false := by
      cases hv : (verify_url env.probe).1
      · rfl
      · exact absurd hv ha
    refine ⟨?_, ?_, fun _ => ?_⟩ <;>
      simp [verify_property, hm, ha', hne]

def env204 : VEnv := ⟨true, .status 204, .returns "irrelevant", 7⟩

/-- C2 (counterexample to the claim as stated).  Status 204 is a 2xx status,
yet `verify_property` dismisses the lead as `invalid_url` and never calls the
LLM: the source tests `status_code == 200`, not "2xx". -/
theorem C2_claim_counterexample :
    (200 ≤ 204 ∧ 204 < 300) ∧
    (verify_property env204 prop0).1.funnel_stage = "dismissed" ∧
    (verify_property env204 prop0).1.verification_result = some "invalid_url" ∧
    (verify_property env204 prop0).2 = [Event.probe] := by
  exact ⟨⟨by decide, by decide⟩, rfl, rfl, rfl⟩

def env404 : VEnv := ⟨true, .status 404, .returns "irrelevant", 7⟩

def env200 : VEnv := ⟨true, .status 200, .returns "no json", 7⟩

/-- Witness for C2: a 404 probe dismisses without an LLM call, and a 200
probe reaches the LLM. -/
theorem C2_liveness_gate_witness :
    Event.llm ∉ (verify_property env404 prop0).2 ∧
    (verify_property env404 prop0).1.funnel_stage = "dismissed" ∧
    Event.llm ∈ (verify_property env200 prop0).2 := by
  have h4 := C2_liveness_gate env404 prop0 rfl
  have h2 := C2_liveness_gate env200 prop0 rfl
  refine ⟨fun hmem => ?_, ?_, h2.2.1.mpr rfl⟩
  · have : env404.probe = .status 200 := h4.2.1.mp hmem
    simp [env404] at this
  · rw [h4.2.2 (by simp [env404])]

/-- C6 (confirmed).  With no LLM credential configured, `verify_property`
returns the lead immediately with `funnel_stage = qualified`, makes no probe
and no LLM call (empty trace), and leaves every other field unchanged. -/
theorem C6_no_llm_short_circuit (env : VEnv) (prop : Property)
    (hm : env.modelConfigured = false) :
    verify_property env prop = ({ prop with funnel_stage := "qualified" }, []) := by
  simp [verify_property, hm]

def envNoLlm : VEnv := ⟨false, .status 500, .raises "boom", 3⟩

/-- Witness for C6 at a concrete environment and lead. -/
theorem C6_no_llm_short_circuit_witness :
    verify_property envNoLlm prop0 = ({ prop0 with funnel_stage := "qualified" }, []) :=
  C6_no_llm_short_circuit envNoLlm prop0 rfl

def env10 : VEnv :=
  ⟨true, .status 200,
   .returns "\x7b\"classification\": \"banana\", \"is_available\": true, \"reason\": \"r\"\x7d", 7⟩

/-- C10 (confirmed).  A decodable verdict whose `classification` is the
arbitrary string "banana" is stored into `funnel_stage` unvalidated, so the
returned lead's stage lies outside the `FunnelStage` enumeration: pydantic's
`Literal` check runs at construction only, not on attribute assignment. -/
theorem C10_unvalidated_classification :
    (verify_property env10 prop0).1.funnel_stage = "banana" ∧
    memb (verify_property env10 prop0).1.funnel_stage funnelStages = false := by
  exact ⟨rfl, rfl⟩

/-! ### Theorems about the analysis stage -/

/-- C5 (amended).  When the verdict decodes: a `score` key overwrites the
lead's score and an `ai_summary` key overwrites its summary unconditionally;
`inferred_beds` / `inferred_acreage` are applied only when the lead's current
`bed_count` / `acreage` is falsy in Python's sense — `None` **or zero** — so
a lead with a nonzero `bed_count` keeps it, a lead with no `bed_count` takes
a truthy inferred value, but (the correction) a stored zero also counts as
"no value" and is overwritten. -/
theorem C5_inference_precedence (env : AEnv) (prop : Property)
    (text cand : String) (data : Json)
    (hm : env.modelConfigured = true) (hl : env.llm = .returns text)
    (hc : extractJson text = some cand) (hd : parseJsonE cand = .ok data) :
    (∀ n : Int, jlookup data "score" = some (.num n) →
      (analyze_property env prop).score = n) ∧
    (∀ s : String, jlookup data "ai_summary" = some (.str s) →
      (analyze_property env prop).ai_summary = some s) ∧
    (∀ n : Int, prop.bed_count = some n → n ≠ 0 →
      (analyze_property env prop).bed_count = prop.bed_count) ∧
    (prop.bed_count = none → ∀ m : Int,
      jlookup data "inferred_beds" = some (.num m) → m ≠ 0 →
      (analyze_property env prop).bed_count = some m) ∧
    (∀ n : Int, prop.acreage = some n → n ≠ 0 →
      (analyze_property env prop).acreage = prop.acreage) ∧
    (prop.acreage = none → ∀ m : Int,
      jlookup data "inferred_acreage" = some (.num m) → m ≠ 0 →
      (analyze_property env prop).acreage = some m) := by
  simp only [analyze_property, hm, hl, hc, hd, Bool.false_eq_true, if_false]
  refine ⟨?_, ?_, ?_, ?_, ?_, ?_⟩
  · intro n hn
    simp [apply_ite Property.score, jgetIntD, hn]
  · intro s hs
    simp [apply_ite Property.ai_summary, jgetStrOptD, hs]
  · intro n hn hnz
    have hT : pyTruthyOptInt (some n) = true := by simp [pyTruthyOptInt, hnz]
    simp [apply_ite Property.bed_count, hn, hT]
  · intro hnone m hm' hmz
    have h2 : jsonTruthy (some (Json.num m)) = true := by simp [jsonTruthy, hmz]
    simp [apply_ite Property.bed_count, hnone, hm', h2, pyTruthyOptInt, jAssignInt]
  · intro n hn hnz
    have hT : pyTruthyOptInt (some n) = true := by simp [pyTruthyOptInt, hnz]
    simp [apply_ite Property.acreage, hn, hT]
  · intro hnone m hm' hmz
    have h2 : jsonTruthy (some (Json.num m)) = true := by simp [jsonTruthy, hmz]
    simp [apply_ite Property.acreage, hnone, hm', h2, pyTruthyOptInt, jAssignInt]

def aenv5 : AEnv := ⟨true, .returns "\x7b\"inferred_beds\": 60\x7d"⟩

def prop5zero : Property := { prop0 with bed_count := some 0 }

/-- C5 (counterexample to the claim as stated).  A lead that already has a
value for `bed_count` — namely 0 — still takes the inferred value 60, because
the source guards with Python truthiness (`not prop.bed_count`), not with a
presence check. -/
theorem C5_claim_counterexample :
    prop5zero.bed_count = some 0 ∧ prop5zero.bed_count ≠ none ∧
    (analyze_property aenv5 prop5zero).bed_count = some 60 := by
  exact ⟨rfl, by simp [prop5zero], rfl⟩

def prop5forty : Property := { prop0 with bed_count := some 40 }

/-- Witness for C5: the spec's own example — a lead entering analysis with
`bed_count = 40` keeps 40 even though the verdict infers 60. -/
theorem C5_inference_precedence_witness :
    (analyze_property aenv5 prop5forty).bed_count = some 40 := by
  have h := (C5_inference_precedence aenv5 prop5forty
    "\x7b\"inferred_beds\": 60\x7d" "\x7b\"inferred_beds\": 60\x7d"
    (Json.obj [("inferred_beds", Json.num 60)])
    rfl rfl rfl rfl).2.2.1 40 rfl (by decide)
  exact h.trans rfl

/-! ### Theorems about URL normalization -/

/-- C7 (confirmed).  `normalize_url` removes everything from the first `'?'`,
everything from the first `'#'`, and all trailing slashes — equivalently it
keeps the prefix before the first query/fragment delimiter and strips
trailing `'/'` — and the two spec examples collapse to the same key. -/
theorem C7_normalize_url_spec :
    (∀ u : String, normalize_url u = specNormalizeUrl u) ∧
    normalize_url "http://x.com/a?b=1" = "http://x.com/a" ∧
    normalize_url "http://x.com/a/" = "http://x.com/a" ∧
    normalize_url "http://x.com/a?b=1" = normalize_url "http://x.com/a/" := by
  refine ⟨fun u => ?_, rfl, rfl, rfl⟩
  unfold normalize_url specNormalizeUrl
  rw [pySplitHead_comm_takeWhile]

/-! ### Theorems about location extraction -/

/-- C8 (amended).  `extract_location` is a pure function of the combined
`title ++ " " ++ text`.  It returns `"City, ST"` precisely built from the
**first** (leftmost) regex match of the City-ST pattern when that match's
state code is valid; when the regex finds nothing — or (the correction) when
its first match carries an invalid state code, even though a later valid
`"City, ST"` occurrence exists — it falls back to some valid state whose
standalone padded token occurs in the combined text, and to
`"Location Unknown"` when no state token occurs either. -/
theorem C8_extract_location_characterization (text title : String) :
    (∀ city st, searchCityST false (title ++ " " ++ text).toList = some (city, st) →
      memb st usStates = true → extract_location text title = city ++ ", " ++ st) ∧
    ((searchCityST false (title ++ " " ++ text).toList = none ∨
      (∃ city st, searchCityST false (title ++ " " ++ text).toList = some (city, st) ∧
        memb st usStates = false)) →
      ((∃ st ∈ usStates, standaloneState st (title ++ " " ++ text) = true) →
        extract_location text title ∈ usStates ∧
        standaloneState (extract_location text title) (title ++ " " ++ text) = true) ∧
      ((∀ st ∈ usStates, standaloneState st (title ++ " " ++ text) = false) →
        extract_location text title = "Location Unknown")) := by
  constructor
  · intro city st hsearch hmem
    simp at hsearch
    simp [extract_location, hsearch, hmem]
  · intro hfail
    have hfb : extract_location text title = fallbackState (title ++ " " ++ text) := by
      rcases hfail with h | ⟨city, st, hsearch, hmem⟩
      · simp at h
        simp [extract_location, h]
      · simp at hsearch
        simp [extract_location, hsearch, hmem]
    constructor
    · intro ⟨st, hstmem, hstand⟩
      rcases firstSuch_isSome_of_exists
          (fun s => standaloneState s (title ++ " " ++ text)) usStates
          ⟨st, hstmem, hstand⟩ with ⟨y, hy⟩
      have hyp := firstSuch_mem_prop _ _ _ hy
      rw [hfb]
      simp only [fallbackState, hy]
      exact hyp
    · intro hall
      rw [hfb]
      simp only [fallbackState,
        firstSuch_eq_none_of_forall _ _ hall]

/-- C8 (counterexample to the claim as stated).  The combined text contains
the valid occurrence "Boston, MA", yet `extract_location` returns the bare
fallback token "MA": the leftmost regex match is "Aab, ZZ", whose state code
is invalid, and the source then abandons regex matching entirely instead of
trying later occurrences. -/
theorem C8_claim_counterexample :
    containsStr "Boston, MA" ("t" ++ " " ++ "Aab, ZZ Boston, MA") = true ∧
    memb "MA" usStates = true ∧
    extract_location "Aab, ZZ Boston, MA" "t" = "MA" ∧
    ("MA" : String) ≠ "Boston, MA" := by
  refine ⟨rfl, rfl, rfl, by decide⟩

/-- Witness for C8: a combined text whose first regex match is the valid
"Asheville, NC". -/
theorem C8_extract_location_witness :
    extract_location "campus in Asheville, NC for sale" "Listing" = "Asheville, NC" := by
  have h := (C8_extract_location_characterization
    "campus in Asheville, NC for sale" "Listing").1 "Asheville" "NC" rfl rfl
  exact h.trans rfl

/-! ### Lemmas about the dedup loop -/

theorem sift_seen (urlOf : α → String) (existing : List String) :
    ∀ (l : List α) (seen : List String),
      (sift urlOf existing seen l).1
        = seen ++ ((sift urlOf existing seen l).2.map
            (fun h => normalize_url (urlOf h))) := by
  intro l
  induction l with
  | nil => intro seen; simp [sift]
  | cons h rest ih =>
    intro seen
    by_cases hc : (memb (normalize_url (urlOf h)) existing
        || memb (normalize_url (urlOf h)) seen) = true
    · simpa [sift, hc] using ih seen
    · simp only [sift, hc, if_false, Bool.false_eq_true, List.map_cons]
      rw [ih (seen ++ [normalize_url (urlOf h)])]
      simp

theorem sift_seen_mono (urlOf : α → String) (existing : List String) :
    ∀ (l : List α) (seen : List String) (x : String), x ∈ seen →
      x ∈ (sift urlOf existing seen l).1 := by
  intro l
  induction l with
  | nil => intro seen x hx; simpa [sift] using hx
  | cons h rest ih =>
    intro seen x hx
    by_cases hc : (memb (normalize_url (urlOf h)) existing
        || memb (normalize_url (urlOf h)) seen) = true
    · simpa [sift, hc] using ih seen x hx
    · simp only [sift, hc, if_false, Bool.false_eq_true]
      exact ih _ x (List.mem_append_left _ hx)

theorem sift_covers (urlOf : α → String) (existing : List String) :
    ∀ (l : List α) (seen : List String) (h : α), h ∈ l →
      normalize_url (urlOf h) ∈ existing ∨
      normalize_url (urlOf h) ∈ (sift urlOf existing seen l).1 := by
  intro l
  induction l with
  | nil => intro seen h hmem; simp at hmem
  | cons hd rest ih =>
    intro seen h hmem
    by_cases hc : (memb (normalize_url (urlOf hd)) existing
        || memb (normalize_url (urlOf hd)) seen) = true
    · rcases List.mem_cons.mp hmem with rfl | hmem'
      · rcases Bool.or_eq_true_iff.mp hc with h1 | h2
        · exact Or.inl ((memb_iff _ _).mp h1)
        · right
          simp only [sift, hc, if_true]
          exact sift_seen_mono urlOf existing rest seen _ ((memb_iff _ _).mp h2)
      · simpa [sift, hc] using ih seen h hmem'
    · rcases List.mem_cons.mp hmem with rfl | hmem'
      · right
        simp only [sift, hc, if_false, Bool.false_eq_true]
        exact sift_seen_mono urlOf existing rest _ _
          (List.mem_append_right _ (List.mem_singleton.mpr rfl))
      · simp only [sift, hc, if_false, Bool.false_eq_true]
        exact ih _ h hmem'

theorem sift_skips_all (urlOf : α → String) (existing : List String) :
    ∀ (l : List α) (seen : List String),
      (∀ h ∈ l, normalize_url (urlOf h) ∈ existing) →
      sift urlOf existing seen l = (seen, []) := by
  intro l
  induction l with
  | nil => intro seen _; rfl
  | cons h rest ih =>
    intro seen hall
    have h1 : memb (normalize_url (urlOf h)) existing = true :=
      (memb_iff _ _).mpr (hall h (List.mem_cons_self _ _))
    have hc : (memb (normalize_url (urlOf h)) existing
        || memb (normalize_url (urlOf h)) seen) = true := by
      simp [h1]
    simp only [sift, hc, if_true]
    exact ih seen fun x hx => hall x (List.mem_cons_of_mem _ hx)

/-! ### Lemmas about the provider loop -/

theorem runProvider_evolution (search : β → Except String (List α))
    (urlOf : α → String) (mk : β → α → Property) (mkEv : β → SEvent)
    (existing : List String) (hurl : ∀ q h, (mk q h).url = urlOf h) :
    ∀ (qs : List β) (st : ScoutState),
      ∃ Δ : List Property,
        (runProvider search urlOf mk mkEv existing st qs).props
          = st.props ++ Δ ∧
        (runProvider search urlOf mk mkEv existing st qs).seen
          = st.seen ++ Δ.map (fun p => normalize_url p.url) := by
  intro qs
  induction qs with
  | nil => intro st; exact ⟨[], by simp [runProvider], by simp [runProvider]⟩
  | cons q rest ih =>
    intro st
    cases hs : search q with
    | error e =>
      rcases ih { st with trace := st.trace ++ [mkEv q] } with ⟨Δ, h1, h2⟩
      exact ⟨Δ, by simpa [runProvider, hs] using h1,
        by simpa [runProvider, hs] using h2⟩
    | ok results =>
      rcases ih ⟨(sift urlOf existing st.seen results).1,
          st.props ++ ((sift urlOf existing st.seen results).2.map (mk q)),
          st.trace ++ [mkEv q]⟩ with ⟨Δ, h1, h2⟩
      refine ⟨(sift urlOf existing st.seen results).2.map (mk q) ++ Δ, ?_, ?_⟩
      · simp only [runProvider, hs]
        rw [h1]
        simp
      · simp only [runProvider, hs]
        rw [h2]
        simp only [sift_seen urlOf existing results st.seen, List.map_append,
          List.map_map, List.append_assoc]
        have hmaps : ((sift urlOf existing st.seen results).2.map
              ((fun p => normalize_url p.url) ∘ mk q))
            = ((sift urlOf existing st.seen results).2.map
              (fun h => normalize_url (urlOf h))) := by
          apply List.map_congr_left
          intro a _
          simp [Function.comp, hurl]
        rw [hmaps]

theorem runProvider_seen_mono (search : β → Except String (List α))
    (urlOf : α → String) (mk : β → α → Property) (mkEv : β → SEvent)
    (existing : List String) (hurl : ∀ q h, (mk q h).url = urlOf h)
    (qs : List β) (st : ScoutState) (x : String) (hx : x ∈ st.seen) :
    x ∈ (runProvider search urlOf mk mkEv existing st qs).seen := by
  rcases runProvider_evolution search urlOf mk mkEv existing hurl qs st
    with ⟨Δ, _, h2⟩
  rw [h2]
  exact List.mem_append_left _ hx

theorem runProvider_covers (search : β → Except String (List α))
    (urlOf : α → String) (mk : β → α → Property) (mkEv : β → SEvent)
    (existing : List String) (hurl : ∀ q h, (mk q h).url = urlOf h) :
    ∀ (qs : List β) (st : ScoutState) (q : β) (res : List α) (h : α),
      q ∈ qs → search q = .ok res → h ∈ res →
      normalize_url (urlOf h) ∈ existing ∨
      normalize_url (urlOf h)
        ∈ (runProvider search urlOf mk mkEv existing st qs).seen := by
  intro qs
  induction qs with
  | nil => intro st q res h hq _ _; simp at hq
  | cons q0 rest ih =>
    intro st q res h hq hres hmem
    rcases List.mem_cons.mp hq with rfl | hq'
    · rcases sift_covers urlOf existing res st.seen h hmem with hl | hr
      · exact Or.inl hl
      · right
        simp only [runProvider, hres]
        exact runProvider_seen_mono search urlOf mk mkEv existing hurl rest _ _ hr
    · cases hs : search q0 with
      | error e =>
        simpa [runProvider, hs] using
          ih { st with trace := st.trace ++ [mkEv q0] } q res h hq' hres hmem
      | ok results =>
        simpa [runProvider, hs] using
          ih ⟨(sift urlOf existing st.seen results).1,
              st.props ++ ((sift urlOf existing st.seen results).2.map (mk q0)),
              st.trace ++ [mkEv q0]⟩ q res h hq' hres hmem

theorem runProvider_all_covered (search : β → Except String (List α))
    (urlOf : α → String) (mk : β → α → Property) (mkEv : β → SEvent)
    (existing : List String) :
    ∀ (qs : List β) (st : ScoutState),
      (∀ q ∈ qs, ∀ res, search q = .ok res →
        ∀ h ∈ res, normalize_url (urlOf h) ∈ existing) →
      (runProvider search urlOf mk mkEv existing st qs).props = st.props ∧
      (runProvider search urlOf mk mkEv existing st qs).seen = st.seen := by
  intro qs
  induction qs with
  | nil => intro st _; exact ⟨rfl, rfl⟩
  | cons q0 rest ih =>
    intro st hall
    cases hs : search q0 with
    | error e =>
      simpa [runProvider, hs] using
        ih { st with trace := st.trace ++ [mkEv q0] }
          fun q hq res hres h hmem => hall q (List.mem_cons_of_mem _ hq) res hres h hmem
    | ok results =>
      have hskip : sift urlOf existing st.seen results = (st.seen, []) :=
        sift_skips_all urlOf existing results st.seen
          (fun h hmem => hall q0 (List.mem_cons_self _ _) results hs h hmem)
      simp only [runProvider, hs, hskip, List.map_nil, List.append_nil]
      exact ih { st with trace := st.trace ++ [mkEv q0] }
        fun q hq res hres h hmem => hall q (List.mem_cons_of_mem _ hq) res hres h hmem

theorem runProvider_trace (search : β → Except String (List α))
    (urlOf : α → String) (mk : β → α → Property) (mkEv : β → SEvent)
    (existing : List String) :
    ∀ (qs : List β) (st : ScoutState),
      (runProvider search urlOf mk mkEv existing st qs).trace
        = st.trace ++ qs.map mkEv := by
  intro qs
  induction qs with
  | nil => intro st; simp [runProvider]
  | cons q0 rest ih =>
    intro st
    cases hs : search q0 with
    | error e => simp [runProvider, hs, ih]
    | ok results => simp [runProvider, hs, ih]

/-! ### Lemmas about a whole discovery run -/

/-- After a run started with empty accumulators, the dedup accumulator is
exactly the normalized URLs of the produced leads. -/
theorem scoutRun_seen_eq (env : ScoutEnv) (existing : List String)
    (cq : Option String) (cats : Option (List String)) :
    (scoutRun env existing cq cats).seen
      = (scoutRun env existing cq cats).props.map (fun p => normalize_url p.url) := by
  rcases runProvider_evolution (fun qv => env.exaSearch qv.1) SearchHit.url
      (fun qv h => mkExaProp qv.1 qv.2 h) (fun qv => SEvent.exa qv.1) existing
      (fun _ _ => rfl) (assembleQueries cq cats) ⟨[], [], []⟩ with ⟨Δ1, h1p, h1s⟩
  by_cases ht : (env.tavilyConfigured && cq.isNone) = true
  · rcases runProvider_evolution env.tavilySearch (fun h => h.url.getD "")
        mkTavilyProp SEvent.tavily existing (fun _ _ => rfl) tavilyQueries
        (runProvider (fun qv => env.exaSearch qv.1) SearchHit.url
          (fun qv h => mkExaProp qv.1 qv.2 h) (fun qv => SEvent.exa qv.1)
          existing ⟨[], [], []⟩ (assembleQueries cq cats))
      with ⟨Δ2, h2p, h2s⟩
    simp only [scoutRun, ht, if_true]
    rw [h2p, h2s, h1p, h1s]
    simp
  · simp only [scoutRun, ht, if_false, Bool.false_eq_true]
    rw [h1p, h1s]
    simp

/-- Every Exa hit for a query of the run ends up covered by the supplied known
set or by the run's final accumulator. -/
theorem scoutRun_covers_exa (env : ScoutEnv) (existing : List String)
    (cq : Option String) (cats : Option (List String)) :
    ∀ qv ∈ assembleQueries cq cats, ∀ res, env.exaSearch qv.1 = .ok res →
      ∀ h ∈ res, normalize_url h.url ∈ existing ∨
        normalize_url h.url ∈ (scoutRun env existing cq cats).seen := by
  intro qv hqv res hres h hmem
  have hcov := runProvider_covers (fun qv => env.exaSearch qv.1) SearchHit.url
    (fun qv h => mkExaProp qv.1 qv.2 h) (fun qv => SEvent.exa qv.1) existing
    (fun _ _ => rfl) (assembleQueries cq cats) ⟨[], [], []⟩ qv res h hqv hres hmem
  rcases hcov with hl | hr
  · exact Or.inl hl
  · right
    by_cases ht : (env.tavilyConfigured && cq.isNone) = true
    · simp only [scoutRun, ht, if_true]
      exact runProvider_seen_mono env.tavilySearch (fun h => h.url.getD "")
        mkTavilyProp SEvent.tavily existing (fun _ _ => rfl) tavilyQueries _ _ hr
    · simp only [scoutRun, ht, if_false, Bool.false_eq_true]
      exact hr

/-- Every Tavily hit of the run (when the Tavily pass executes) is likewise
covered. -/
theorem scoutRun_covers_tavily (env : ScoutEnv) (existing : List String)
    (cq : Option String) (cats : Option (List String))
    (ht : (env.tavilyConfigured && cq.isNone) = true) :
    ∀ q ∈ tavilyQueries, ∀ res, env.tavilySearch q = .ok res →
      ∀ h ∈ res, normalize_url (h.url.getD "") ∈ existing ∨
        normalize_url (h.url.getD "") ∈ (scoutRun env existing cq cats).seen := by
  intro q hq res hres h hmem
  have hcov := runProvider_covers env.tavilySearch (fun h => h.url.getD "")
    mkTavilyProp SEvent.tavily existing (fun _ _ => rfl) tavilyQueries
    (runProvider (fun qv => env.exaSearch qv.1) SearchHit.url
      (fun qv h => mkExaProp qv.1 qv.2 h) (fun qv => SEvent.exa qv.1)
      existing ⟨[], [], []⟩ (assembleQueries cq cats)) q res h hq hres hmem
  rcases hcov with hl | hr
  · exact Or.inl hl
  · right
    simp only [scoutRun, ht, if_true]
    exact hr

/-- C3 (amended).  For a deterministic provider environment and identical
query/category arguments, a second discovery run whose supplied known-URL set
is the set of **normalized** URLs of the first run's leads (the first run
starting from an empty known set) yields zero new leads.  The correction: the
known set must hold the normalized keys, not the leads' raw `url` fields —
dedup compares normalized hit URLs against the supplied set verbatim. -/
theorem C3_idempotent_dedup (env : ScoutEnv) (cq : Option String)
    (cats : Option (List String)) :
    (find_candidates env
        ((find_candidates env [] cq cats).1.map (fun p => normalize_url p.url))
        cq cats).1 = [] := by
  by_cases hexa : env.exaConfigured = false
  · simp [find_candidates, hexa]
  · simp only [find_candidates]
    rw [if_neg hexa, if_neg hexa]
    dsimp only
    rw [← scoutRun_seen_eq env [] cq cats]
    set S := (scoutRun env [] cq cats).seen with hS
    -- the Exa pass of the second run skips every hit
    have hcovExa : ∀ qv ∈ assembleQueries cq cats, ∀ res,
        env.exaSearch qv.1 = .ok res → ∀ h ∈ res,
        normalize_url h.url ∈ S := by
      intro qv hqv res hres h hmem
      rcases scoutRun_covers_exa env [] cq cats qv hqv res hres h hmem with hl | hr
      · exact absurd hl (List.not_mem_nil _)
      · exact hr
    have hExa := runProvider_all_covered (fun qv => env.exaSearch qv.1)
      SearchHit.url (fun qv h => mkExaProp qv.1 qv.2 h)
      (fun qv => SEvent.exa qv.1) S
      (assembleQueries cq cats) ⟨[], [], []⟩ hcovExa
    by_cases ht : (env.tavilyConfigured && cq.isNone) = true
    · have hcovTav : ∀ q ∈ tavilyQueries, ∀ res,
          env.tavilySearch q = .ok res → ∀ h ∈ res,
          normalize_url (h.url.getD "") ∈ S := by
        intro q hq res hres h hmem
        rcases scoutRun_covers_tavily env [] cq cats ht q hq res hres h hmem
          with hl | hr
        · exact absurd hl (List.not_mem_nil _)
        · exact hr
      have hTav := runProvider_all_covered env.tavilySearch
        (fun h => h.url.getD "") mkTavilyProp SEvent.tavily
        S tavilyQueries
        (runProvider (fun qv => env.exaSearch qv.1) SearchHit.url
          (fun qv h => mkExaProp qv.1 qv.2 h) (fun qv => SEvent.exa qv.1)
          S ⟨[], [], []⟩ (assembleQueries cq cats)) hcovTav
      simp only [scoutRun, ht, if_true]
      rw [hTav.1, hExa.1]
    · simp only [scoutRun, ht, if_false, Bool.false_eq_true]
      exact hExa.1

def env3 : ScoutEnv :=
  ⟨true, false,
   fun q => if q == "q" then
       .ok [{ title := some "T", url := "http://x.com/a?b=1", text := some "d" }]
     else .ok [],
   fun _ => .ok []⟩

/-- C3 (counterexample to the claim as stated).  The provider returns one hit
at a URL carrying a query string.  The first run emits that lead with its raw
`url`; a second identical run whose known-URL set is exactly the first run's
`url` fields still emits one new lead, because dedup tests the **normalized**
URL (`http://x.com/a`) against the supplied set, which holds only the raw
form (`http://x.com/a?b=1`). -/
theorem C3_claim_counterexample :
    (find_candidates env3 [] (some "q") (some [])).1.map Property.url
      = ["http://x.com/a?b=1"] ∧
    (find_candidates env3
        ((find_candidates env3 [] (some "q") (some [])).1.map Property.url)
        (some "q") (some [])).1.length = 1 := by
  exact ⟨rfl, rfl⟩

def tavHit4 : TavilyHit :=
  { url := some "http://t.com/x", content := some "body", title := some "Tt" }

def env4 : ScoutEnv :=
  ⟨false, true, fun _ => .ok [], fun _ => .ok [tavHit4]⟩

/-- C4 (counterexample to the claim as stated).  Tavily is configured and
would return a fresh lead, Exa is not configured — yet `find_candidates`
returns an empty batch having attempted no search at all: the source returns
`[]` as soon as the Exa credential is missing, before the Tavily pass. -/
theorem C4_claim_counterexample :
    env4.exaConfigured = false ∧ env4.tavilyConfigured = true ∧
    env4.tavilySearch "college campus for sale closing 2025 2026"
      = .ok [tavHit4] ∧
    find_candidates env4 [] none none = ([], []) := by
  exact ⟨rfl, rfl, rfl, rfl⟩

/-- C4 (amended).  A discovery run yields an empty result with no searches
attempted whenever the primary provider's (Exa) credential is missing — even
when the secondary provider's (Tavily) credential is configured; when Exa is
configured, Tavily is configured and no custom query is given, every Tavily
query is attempted. -/
theorem C4_exa_gate (env : ScoutEnv) (existing : List String)
    (cq : Option String) (cats : Option (List String)) :
    (env.exaConfigured = false → find_candidates env existing cq cats = ([], [])) ∧
    (env.exaConfigured = true → env.tavilyConfigured = true → cq = none →
      ∀ q ∈ tavilyQueries,
        SEvent.tavily q ∈ (find_candidates env existing cq cats).2) := by
  constructor
  · intro h
    simp [find_candidates, h]
  · intro hexa htav hcq q hq
    have hcond : (env.tavilyConfigured && cq.isNone) = true := by
      simp [htav, hcq]
    simp only [find_candidates, hexa, Bool.true_eq_false, if_false]
    simp only [scoutRun, hcond, if_true]
    rw [runProvider_trace]
    exact List.mem_append_right _ (List.mem_map_of_mem _ hq)

def env4b : ScoutEnv := ⟨true, true, fun _ => .ok [], fun _ => .ok []⟩

/-- Witness for C4: a missing Exa credential empties the run even with Tavily
configured, and with both configured the Tavily queries are attempted. -/
theorem C4_exa_gate_witness :
    find_candidates env4 [] none none = ([], []) ∧
    SEvent.tavily "college campus for sale closing 2025 2026"
      ∈ (find_candidates env4b [] none none).2 := by
  constructor
  · exact (C4_exa_gate env4 [] none none).1 rfl
  · exact (C4_exa_gate env4b [] none none).2 rfl rfl rfl _
      (by simp [tavilyQueries])

/-! ### Theorems about the shape of discovered leads -/

theorem runProvider_shape (search : β → Except String (List α))
    (urlOf : α → String) (mk : β → α → Property) (mkEv : β → SEvent)
    (existing : List String)
    (hmk : ∀ q h, (mk q h).funnel_stage = "discovered" ∧ (mk q h).is_new = true ∧
      (mk q h).score = 50 ∧ (mk q h).status = "New") :
    ∀ (qs : List β) (st : ScoutState),
      (∀ p ∈ st.props, p.funnel_stage = "discovered" ∧ p.is_new = true ∧
        p.score = 50 ∧ p.status = "New") →
      ∀ p ∈ (runProvider search urlOf mk mkEv existing st qs).props,
        p.funnel_stage = "discovered" ∧ p.is_new = true ∧ p.score = 50 ∧
          p.status = "New" := by
  intro qs
  induction qs with
  | nil => intro st hst p hp; exact hst p (by simpa [runProvider] using hp)
  | cons q0 rest ih =>
    intro st hst p hp
    cases hs : search q0 with
    | error e =>
      exact ih { st with trace := st.trace ++ [mkEv q0] } (fun p' hp' => hst p' hp')
        p (by simpa [runProvider, hs] using hp)
    | ok results =>
      refine ih ⟨(sift urlOf existing st.seen results).1,
          st.props ++ ((sift urlOf existing st.seen results).2.map (mk q0)),
          st.trace ++ [mkEv q0]⟩ ?_ p (by simpa [runProvider, hs] using hp)
      intro p' hp'
      rcases List.mem_append.mp hp' with h1 | h2
      · exact hst p' h1
      · rcases List.mem_map.mp h2 with ⟨a, _, rfl⟩
        exact hmk q0 a

/-- C9 (amended).  Every lead a discovery run produces — through either
provider — has `funnel_stage = discovered`, `is_new = true`, `score = 50` and
workflow status "New"; a lead built from an Exa hit stores the hit's raw URL,
falls back to the title "Untitled Property" on a missing or empty title, and
truncates the body to 500 characters with an ellipsis appended only when the
body exceeds the budget; a lead built from a Tavily hit does the same except
(the correction) its fallback title is "Untitled", applied when the title key
is absent. -/
theorem C9_lead_record_shape :
    (∀ (env : ScoutEnv) (existing : List String) (cq : Option String)
        (cats : Option (List String)) (p : Property),
      p ∈ (find_candidates env existing cq cats).1 →
      p.funnel_stage = "discovered" ∧ p.is_new = true ∧ p.score = 50 ∧
        p.status = "New") ∧
    (∀ q via h, (mkExaProp q via h).url = h.url ∧
      (mkExaProp q via h).title = pyOr h.title "Untitled Property" ∧
      (mkExaProp q via h).description = some (pyTrunc (h.text.getD ""))) ∧
    (∀ q h, (mkTavilyProp q h).url = h.url.getD "" ∧
      (mkTavilyProp q h).title = h.title.getD "Untitled" ∧
      (mkTavilyProp q h).description = some (pyTrunc (h.content.getD ""))) ∧
    (∀ s : String, s.length > 500 → pyTrunc s = s.take 500 ++ "...") ∧
    (∀ s : String, ¬s.length > 500 → pyTrunc s = s) := by
  refine ⟨?_, fun q via h => ⟨rfl, rfl, rfl⟩, fun q h => ⟨rfl, rfl, rfl⟩,
    fun s hs => by simp [pyTrunc, hs], fun s hs => by simp [pyTrunc, hs]⟩
  intro env existing cq cats p hp
  by_cases hexa : env.exaConfigured = false
  · simp [find_candidates, hexa] at hp
  · simp only [find_candidates, hexa, if_false] at hp
    have h1 := runProvider_shape (fun qv => env.exaSearch qv.1) SearchHit.url
      (fun qv h => mkExaProp qv.1 qv.2 h) (fun qv => SEvent.exa qv.1) existing
      (fun _ _ => ⟨rfl, rfl, rfl, rfl⟩) (assembleQueries cq cats) ⟨[], [], []⟩
      (fun p' hp' => by simp at hp')
    by_cases ht : (env.tavilyConfigured && cq.isNone) = true
    · have h2 := runProvider_shape env.tavilySearch (fun h => h.url.getD "")
        mkTavilyProp SEvent.tavily existing (fun _ _ => ⟨rfl, rfl, rfl, rfl⟩)
        tavilyQueries
        (runProvider (fun qv => env.exaSearch qv.1) SearchHit.url
          (fun qv h => mkExaProp qv.1 qv.2 h) (fun qv => SEvent.exa qv.1)
          existing ⟨[], [], []⟩ (assembleQueries cq cats)) h1
      simp only [scoutRun, ht, if_true] at hp
      exact h2 p hp
    · simp only [scoutRun, ht, if_false, Bool.false_eq_true] at hp
      exact h1 p hp

def env9 : ScoutEnv :=
  ⟨true, true, fun _ => .ok [],
   fun q => if q == "college campus for sale closing 2025 2026" then
       .ok [{ url := some "http://t.com/x", content := some "body", title := none }]
     else .ok []⟩

def lead9 : Property :=
  mkTavilyProp "college campus for sale closing 2025 2026"
    { url := some "http://t.com/x", content := some "body", title := none }

/-- C9 (counterexample to the claim as stated).  A Tavily hit with no title
produces a lead titled "Untitled", not "Untitled Property": `_search_tavily`
uses `result.get('title', 'Untitled')`. -/
theorem C9_claim_counterexample :
    (find_candidates env9 [] none (some [])).1.map Property.title = ["Untitled"] ∧
    ("Untitled" : String) ≠ "Untitled Property" := by
  exact ⟨rfl, by decide⟩

/-- Witness for C9: the concrete lead of that run satisfies the stage /
novelty / score / status shape. -/
theorem C9_lead_record_shape_witness :
    lead9.funnel_stage = "discovered" ∧ lead9.is_new = true ∧
    lead9.score = 50 ∧ lead9.status = "New" := by
  have hm : lead9 ∈ (find_candidates env9 [] none (some [])).1 := by
    show lead9 ∈ [lead9]
    exact List.mem_singleton.mpr rfl
  exact C9_lead_record_shape.1 env9 [] none (some []) lead9 hm

end EdgeCity
